import Mathlib

/-!
Verification of the CryptoFuturesBot core against its natural-language
specification.  The Python sources are shallowly embedded: prices and
quantities become rationals (`ℚ`), Python dictionaries become association
lists, and code that can raise an exception returns `Except`.

Sections:
* risk manager           — `src/utils/risk_management.py` (`RiskManager.should_exit`)
* portfolio manager      — `src/services/portfolio_manager.py`
* signal generation      — `src/part1_core/signal_generator.py`, `src/bot/backtest.py`
-/

set_option linter.unusedVariables false

/-- Exceptions the embedded code can surface.  `zeroDivisionError`,
`valueError` and `typeError` model the Python built-ins actually raised by
the source.  `invalidPriceError` is modelled from the spec: the spec's error
taxonomy names an `InvalidPriceError`, but no such exception class exists
anywhere in the source tree; the constructor exists only so that statements
about the spec's taxonomy can be written down and compared with what the
code really raises. -/
inductive PyExc where
  | zeroDivisionError
  | valueError
  | typeError
  | invalidPriceError
  deriving Repr, DecidableEq

instance {ε α : Type} [DecidableEq ε] [DecidableEq α] : DecidableEq (Except ε α) := fun a b =>
  match a, b with
  | .error e, .error f =>
      if h : e = f then .isTrue (by simp [h]) else .isFalse (by simp [h])
  | .error _, .ok _ => .isFalse (by simp)
  | .ok _, .error _ => .isFalse (by simp)
  | .ok x, .ok y =>
      if h : x = y then .isTrue (by simp [h]) else .isFalse (by simp [h])

/-- Models Python's `str.upper()` for the ASCII strings the code compares
(`"LONG"`, `"SHORT"`, `"long"`, …). -/
def pyUpper (s : String) : String := ⟨s.data.map Char.toUpper⟩

/-- Embeds the `RiskLimits` dataclass of `src/utils/risk_management.py`
(lines 22-30), with the same defaults (`0.02`, `0.04`, `1000.0`, `500.0`,
`0.10`, `0.015`). -/
structure RiskLimits where
  stop_loss_pct : ℚ := 2/100
  take_profit_pct : ℚ := 4/100
  max_position_size : ℚ := 1000
  max_daily_loss : ℚ := 500
  max_drawdown_pct : ℚ := 10/100
  trailing_stop_pct : ℚ := 15/1000
  deriving Repr, DecidableEq

namespace RiskManager

/-- The directional percentage P&L computed inside `RiskManager.should_exit`
(`src/utils/risk_management.py` lines 68-71): `(current - entry)/entry`
when `side.upper() == "LONG"`, else `(entry - current)/entry`. -/
def pnl_pct (entry_price current_price : ℚ) (side : String) : ℚ :=
  if pyUpper side = "LONG" then (current_price - entry_price) / entry_price
  else (entry_price - current_price) / entry_price

/-- Embeds `RiskManager.should_exit` (`src/utils/risk_management.py`
lines 55-83).  In Python a zero `entry_price` makes the division raise
`ZeroDivisionError`; the embedding surfaces that as `Except.error`.
Otherwise: stop loss is checked first (`pnl_pct <= -stop_loss_pct`), then
take profit (`pnl_pct >= take_profit_pct`), else hold (`None`). -/
def should_exit (limits : RiskLimits) (entry_price current_price : ℚ)
    (side : String) : Except PyExc (Option String) :=
  if entry_price = 0 then .error .zeroDivisionError
  else if pnl_pct entry_price current_price side ≤ -limits.stop_loss_pct then
    .ok (some "STOP_LOSS")
  else if limits.take_profit_pct ≤ pnl_pct entry_price current_price side then
    .ok (some "TAKE_PROFIT")
  else .ok none

end RiskManager

/-! ## Portfolio manager — `src/services/portfolio_manager.py`

`self.positions` is a Python dict keyed by symbol; it is embedded as an
association list preserving insertion order.  The wall-clock fields
(`entry_time`, `last_update`, `timestamp`), the JSON persistence and the
logging calls are outside the embedding: none of the verified claims
mention them and they do not feed back into the arithmetic. -/

/-- Embeds the `Position` dataclass (`src/services/portfolio_manager.py`
lines 20-31), minus the two timestamp strings. -/
structure Position where
  symbol : String
  side : String
  quantity : ℚ
  entry_price : ℚ
  current_price : ℚ
  unrealized_pnl : ℚ := 0
  realized_pnl : ℚ := 0
  deriving Repr, DecidableEq

/-- Embeds the `Trade` dataclass (`src/services/portfolio_manager.py`
lines 34-44), minus the timestamp string. -/
structure Trade where
  symbol : String
  side : String
  quantity : ℚ
  price : ℚ
  fee : ℚ
  order_id : String
  pnl : ℚ := 0
  deriving Repr, DecidableEq

/-- Dict lookup (`d.get(k)` / `k in d`) on an association list. -/
def alistGet {α : Type} : List (String × α) → String → Option α
  | [], _ => none
  | (k', v') :: rest, k => if k' = k then some v' else alistGet rest k

/-- Dict assignment `d[k] = v`: replaces the value at an existing key in
place, otherwise appends (Python dicts preserve insertion order). -/
def alistSet {α : Type} : List (String × α) → String → α → List (String × α)
  | [], k, v => [(k, v)]
  | (k', v') :: rest, k, v =>
      if k' = k then (k, v) :: rest else (k', v') :: alistSet rest k v

/-- Dict deletion `del d[k]`: removes the entry at the key. -/
def alistDel {α : Type} : List (String × α) → String → List (String × α)
  | [], _ => []
  | (k', v') :: rest, k => if k' = k then rest else (k', v') :: alistDel rest k

/-- Embeds `PortfolioManager._update_position_from_trade`
(`src/services/portfolio_manager.py` lines 179-227).  The Python method
mutates `self.positions` and `trade.pnl`; the embedding returns the updated
position map together with the (possibly `pnl`-annotated) trade.  The
division in the averaging branch is total `ℚ` division; it is only ever
exercised with positive quantities, where the divisor is nonzero. -/
def update_position_from_trade (positions : List (String × Position))
    (trade : Trade) : List (String × Position) × Trade :=
  match alistGet positions trade.symbol with
  | none =>
      if trade.side = "BUY" then
        (alistSet positions trade.symbol
          { symbol := trade.symbol, side := "LONG", quantity := trade.quantity,
            entry_price := trade.price, current_price := trade.price }, trade)
      else
        -- "Note: SHORT positions would be handled differently" — no-op
        (positions, trade)
  | some position =>
      if trade.side = "BUY" ∧ position.side = "LONG" then
        (alistSet positions trade.symbol
          { position with
              entry_price := (position.quantity * position.entry_price +
                  trade.quantity * trade.price) /
                (position.quantity + trade.quantity),
              quantity := position.quantity + trade.quantity }, trade)
      else if trade.side = "SELL" ∧ position.side = "LONG" then
        if position.quantity ≤ trade.quantity then
          if position.quantity < trade.quantity then
            -- excess becomes a short position
            (alistSet positions trade.symbol
              { position with
                  realized_pnl := position.realized_pnl +
                    (trade.price - position.entry_price) * position.quantity,
                  side := "SHORT",
                  quantity := trade.quantity - position.quantity,
                  entry_price := trade.price },
             { trade with pnl := (trade.price - position.entry_price) * position.quantity })
          else
            -- position completely closed
            (alistDel positions trade.symbol,
             { trade with pnl := (trade.price - position.entry_price) * position.quantity })
        else
          -- partial close
          (alistSet positions trade.symbol
            { position with
                realized_pnl := position.realized_pnl +
                  (trade.price - position.entry_price) * trade.quantity,
                quantity := position.quantity - trade.quantity },
           { trade with pnl := (trade.price - position.entry_price) * trade.quantity })
      else
        (positions, trade)

/-- The mutable state of a `PortfolioManager`
(`src/services/portfolio_manager.py` lines 79-82) that `add_trade`
touches: open positions, append-only trade history and cash balance. -/
structure PortfolioState where
  positions : List (String × Position)
  trade_history : List Trade
  balance : ℚ
  deriving Repr, DecidableEq

/-- Embeds `PortfolioManager.add_trade` (`src/services/portfolio_manager.py`
lines 127-177): build the trade record with `pnl = 0`, update the position,
append the trade to the history, and adjust the balance
(`-(value + fee)` for BUY, `+(value - fee)` otherwise). -/
def add_trade (st : PortfolioState) (symbol side : String)
    (quantity price fee : ℚ) (order_id : String) : PortfolioState :=
  let trade : Trade :=
    { symbol := symbol, side := side, quantity := quantity, price := price,
      fee := fee, order_id := order_id, pnl := 0 }
  let res := update_position_from_trade st.positions trade
  { positions := res.1,
    trade_history := st.trade_history ++ [res.2],
    balance :=
      if side = "BUY" then st.balance - (quantity * price + fee)
      else st.balance + (quantity * price - fee) }

/-- Applies a sequence of `add_trade` calls in order; each request carries
the arguments of one call. -/
structure TradeRequest where
  symbol : String
  side : String
  quantity : ℚ
  price : ℚ
  fee : ℚ
  order_id : String
  deriving Repr, DecidableEq

/-- Folds `add_trade` over a list of requests. -/
def apply_trades (st : PortfolioState) : List TradeRequest → PortfolioState
  | [] => st
  | r :: rs => apply_trades (add_trade st r.symbol r.side r.quantity r.price r.fee r.order_id) rs

/-- The invariant of §3 of the spec: every position in the open-position
map has a strictly positive quantity. -/
def positionsPositive (l : List (String × Position)) : Prop :=
  ∀ p ∈ l, 0 < p.2.quantity

/-- Embeds the win-rate computation of
`PortfolioManager.calculate_portfolio_stats`
(`src/services/portfolio_manager.py` lines 268-271):
`profitable_trades / total_trades * 100` guarded by `total_trades > 0`,
where `profitable_trades` counts `pnl > 0` and `total_trades` is the length
of the whole trade history. -/
def win_rate (trade_history : List Trade) : ℚ :=
  if 0 < trade_history.length then
    ((trade_history.filter fun t => 0 < t.pnl).length : ℚ) / trade_history.length * 100
  else 0

/-- Modelled from the spec: the spec's win-rate formula
`count(trade.pnl > 0) / count(trade.pnl != 0, closing trades only) × 100`,
with `0` when there are no closing trades.  This definition follows the
spec's words, not the source, and exists to be compared with `win_rate`. -/
def spec_win_rate (trade_history : List Trade) : ℚ :=
  if 0 < (trade_history.filter fun t => t.pnl ≠ 0).length then
    ((trade_history.filter fun t => 0 < t.pnl).length : ℚ) /
      (trade_history.filter fun t => t.pnl ≠ 0).length * 100
  else 0

/-! ## Signal generation — `src/part1_core/signal_generator.py` and
`src/bot/backtest.py`

Exchange snapshots arrive as JSON/CSV records with string-valued numeric
fields; records are embedded as association lists of strings and Python's
`float(...)` as a decimal-literal parser returning `Option ℚ` (exponent
forms, `inf`/`nan` and surrounding whitespace are not exercised by any
claim and are outside the embedding). -/

/-- Accumulates a decimal digit string into a natural number. -/
def digitsToNat (cs : List Char) : Nat :=
  cs.foldl (fun n c => 10 * n + (c.toNat - 48)) 0

/-- Parses an unsigned decimal literal (`"12"`, `"12.5"`, `"12."`, `".5"`);
anything else — in particular the empty string or a lone `"."` — fails,
as Python's `float` does. -/
def parseUnsignedDec (cs : List Char) : Option ℚ :=
  match cs.dropWhile Char.isDigit with
  | [] => if cs ≠ [] then some (digitsToNat cs : ℚ) else none
  | '.' :: frac =>
      if (cs.takeWhile Char.isDigit ≠ [] ∨ frac ≠ []) ∧ frac.all Char.isDigit then
        some ((digitsToNat (cs.takeWhile Char.isDigit) : ℚ) +
          (digitsToNat frac : ℚ) / (10 : ℚ) ^ frac.length)
      else none
  | _ => none

/-- Models Python's `float(s)` on a string: optional sign followed by an
unsigned decimal literal; `none` models the `ValueError` raised otherwise. -/
def pyFloatOfString (s : String) : Option ℚ :=
  match s.data with
  | '-' :: rest => (parseUnsignedDec rest).map Neg.neg
  | '+' :: rest => parseUnsignedDec rest
  | cs => parseUnsignedDec cs

/-- Models `float(item.get(key, 0))` in `generate_signals`
(`src/part1_core/signal_generator.py` lines 15-18): a missing key defaults
to `0`; a present but non-numeric value raises `ValueError`, which aborts
the caller since `generate_signals` has no exception handler. -/
def item_float (item : List (String × String)) (key : String) : Except PyExc ℚ :=
  match alistGet item key with
  | none => .ok 0
  | some s =>
      match pyFloatOfString s with
      | some q => .ok q
      | none => .error .valueError

/-- A signal record as built by `generate_signals`
(`src/part1_core/signal_generator.py` lines 21-38). -/
structure Signal where
  symbol : String
  change_percent : ℚ
  quote_volume : ℚ
  last_price : ℚ
  deriving Repr, DecidableEq

/-- Signal direction. -/
inductive Direction where
  | BUY
  | SELL
  deriving Repr, DecidableEq

/-- The per-snapshot classification rule of `generate_signals`
(`src/part1_core/signal_generator.py` lines 20-38): BUY when
`change > 3.0 and quote_volume > 10000000`, else SELL when
`change < -3.0 and quote_volume > 10000000`, else no signal.  The
thresholds are the literals hard-coded in the source. -/
def signal_rule (change quote_volume : ℚ) : Option Direction :=
  if 3 < change ∧ 10000000 < quote_volume then some .BUY
  else if change < -3 ∧ 10000000 < quote_volume then some .SELL
  else none

/-- Embeds `generate_signals` (`src/part1_core/signal_generator.py`
lines 10-40): walks the batch in order, parses the numeric fields of each
item (`priceChangePercent`, `quoteVolume`, `lastPrice`, with
`symbol` defaulting to `""`), classifies it with `signal_rule`, and
appends to the buy or sell list.  A `ValueError` from `float(...)`
propagates and aborts the whole batch. -/
def generate_signals : List (List (String × String)) →
    Except PyExc (List Signal × List Signal)
  | [] => .ok ([], [])
  | item :: rest => do
    let change ← item_float item "priceChangePercent"
    let symbol := (alistGet item "symbol").getD ""
    let quote_volume ← item_float item "quoteVolume"
    let last_price ← item_float item "lastPrice"
    let (buys, sells) ← generate_signals rest
    match signal_rule change quote_volume with
    | some .BUY => .ok (⟨symbol, change, quote_volume, last_price⟩ :: buys, sells)
    | some .SELL => .ok (buys, ⟨symbol, change, quote_volume, last_price⟩ :: sells)
    | none => .ok (buys, sells)

/-- A parsed OHLCV candle as built by `load_candles`
(`src/bot/backtest.py` lines 23-31). -/
structure Candle where
  open_price : ℚ
  close_price : ℚ
  high : ℚ
  low : ℚ
  volume : ℚ
  deriving Repr, DecidableEq

/-- Models `row.get(k1) or row.get(k2)` in `load_candles`
(`src/bot/backtest.py` lines 16-20): the lowercase key wins unless missing
or empty (falsy), then the capitalized key is tried. -/
def row_field (row : List (String × String)) (k1 k2 : String) : Option String :=
  match alistGet row k1 with
  | some s => if s ≠ "" then some s else alistGet row k2
  | none => alistGet row k2

/-- Models `float(row.get(k1) or row.get(k2))`: `none` stands for the
`TypeError` (both keys missing → `float(None)`) or `ValueError`
(non-numeric string) caught by `load_candles`. -/
def row_float (row : List (String × String)) (k1 k2 : String) : Option ℚ :=
  (row_field row k1 k2).bind pyFloatOfString

/-- One iteration of the row loop of `load_candles`
(`src/bot/backtest.py` lines 14-31): all five fields must parse, else the
row is skipped (`except (TypeError, ValueError): continue`). -/
def row_to_candle (row : List (String × String)) : Option Candle :=
  match row_float row "open" "Open", row_float row "close" "Close",
      row_float row "high" "High", row_float row "low" "Low",
      row_float row "volume" "Volume" with
  | some o, some c, some h, some l, some v => some ⟨o, c, h, l, v⟩
  | _, _, _, _, _ => none

/-- Embeds `load_candles` (`src/bot/backtest.py` lines 10-32) over an
already-read list of CSV rows: each row that parses is appended, each row
that raises `TypeError`/`ValueError` is skipped and the loop continues. -/
def load_candles : List (List (String × String)) → List Candle
  | [] => []
  | row :: rest =>
      match row_to_candle row with
      | some c => c :: load_candles rest
      | none => load_candles rest

/-! ## Association-list lemmas -/

theorem alistGet_set_self {α : Type} (l : List (String × α)) (k : String) (v : α) :
    alistGet (alistSet l k v) k = some v := by
  induction l with
  | nil => simp [alistSet, alistGet]
  | cons hd tl ih =>
      obtain ⟨k', v'⟩ := hd
      by_cases h : k' = k
      · simp [alistSet, h, alistGet]
      · simp [alistSet, h, alistGet, ih]

theorem mem_alistSet {α : Type} {p : String × α} {l : List (String × α)} {k : String}
    {v : α} (h : p ∈ alistSet l k v) : p = (k, v) ∨ p ∈ l := by
  induction l with
  | nil => simpa [alistSet] using h
  | cons hd tl ih =>
      obtain ⟨k', v'⟩ := hd
      by_cases hk : k' = k
      · simp [alistSet, hk] at h
        rcases h with h | h
        · exact Or.inl (by simp [h])
        · exact Or.inr (by simp [h])
      · simp [alistSet, hk] at h
        rcases h with h | h
        · exact Or.inr (by simp [h])
        · rcases ih h with h' | h'
          · exact Or.inl h'
          · exact Or.inr (by simp [h'])

theorem mem_alistDel {α : Type} {p : String × α} {l : List (String × α)} {k : String}
    (h : p ∈ alistDel l k) : p ∈ l := by
  induction l with
  | nil => simpa [alistDel] using h
  | cons hd tl ih =>
      obtain ⟨k', v'⟩ := hd
      by_cases hk : k' = k
      · simp [alistDel, hk] at h
        exact List.mem_cons_of_mem _ h
      · simp [alistDel, hk] at h
        rcases h with h | h
        · exact List.mem_cons.mpr (Or.inl (by simp [h]))
        · exact List.mem_cons_of_mem _ (ih h)

theorem alistGet_mem {α : Type} {l : List (String × α)} {k : String} {v : α}
    (h : alistGet l k = some v) : (k, v) ∈ l := by
  induction l with
  | nil => simp [alistGet] at h
  | cons hd tl ih =>
      obtain ⟨k', v'⟩ := hd
      by_cases hk : k' = k
      · simp [alistGet, hk] at h
        exact List.mem_cons.mpr (Or.inl (by simp [hk, h]))
      · simp [alistGet, hk] at h
        exact List.mem_cons_of_mem _ (ih h)

theorem alistGet_eq_none_of_not_mem_keys {α : Type} {l : List (String × α)} {k : String}
    (h : k ∉ l.map Prod.fst) : alistGet l k = none := by
  induction l with
  | nil => simp [alistGet]
  | cons hd tl ih =>
      obtain ⟨k', v'⟩ := hd
      rw [List.map_cons, List.mem_cons] at h
      push_neg at h
      rw [alistGet, if_neg fun hk => h.1 hk.symm]
      exact ih h.2

theorem alistGet_del_self_of_nodup {α : Type} {l : List (String × α)} {k : String}
    (h : (l.map Prod.fst).Nodup) : alistGet (alistDel l k) k = none := by
  induction l with
  | nil => simp [alistDel, alistGet]
  | cons hd tl ih =>
      obtain ⟨k', v'⟩ := hd
      rw [List.map_cons, List.nodup_cons] at h
      by_cases hk : k' = k
      · rw [alistDel, if_pos hk]
        exact alistGet_eq_none_of_not_mem_keys (hk ▸ h.1)
      · rw [alistDel, if_neg hk, alistGet, if_neg hk]
        exact ih h.2

/-- C1: for positive entry and current prices and side LONG or SHORT,
`should_exit` computes `pnl_pct` as `(current-entry)/entry` for LONG and
`(entry-current)/entry` for SHORT, returns `STOP_LOSS` iff
`pnl_pct ≤ -stop_loss_pct`, `TAKE_PROFIT` iff `pnl_pct ≥ take_profit_pct`
(stop loss checked first), and holds (`None`) otherwise. -/
theorem should_exit_directional_exits (limits : RiskLimits) (e c : ℚ) (side : String)
    (he : 0 < e) (hc : 0 < c) (hside : side = "LONG" ∨ side = "SHORT")
    (hsl : 0 < limits.stop_loss_pct) (htp : 0 < limits.take_profit_pct) :
    RiskManager.pnl_pct e c "LONG" = (c - e) / e ∧
    RiskManager.pnl_pct e c "SHORT" = (e - c) / e ∧
    (RiskManager.should_exit limits e c side = .ok (some "STOP_LOSS") ↔
      RiskManager.pnl_pct e c side ≤ -limits.stop_loss_pct) ∧
    (RiskManager.should_exit limits e c side = .ok (some "TAKE_PROFIT") ↔
      limits.take_profit_pct ≤ RiskManager.pnl_pct e c side) ∧
    (RiskManager.should_exit limits e c side = .ok none ↔
      ¬ RiskManager.pnl_pct e c side ≤ -limits.stop_loss_pct ∧
      ¬ limits.take_profit_pct ≤ RiskManager.pnl_pct e c side) := by
  refine ⟨by rw [RiskManager.pnl_pct, if_pos (by decide)],
    by rw [RiskManager.pnl_pct, if_neg (by decide)], ?_⟩
  rw [RiskManager.should_exit, if_neg he.ne']
  split_ifs with h1 h2 <;> refine ⟨?_, ?_, ?_⟩ <;> simp_all <;> linarith

/-- Witness for C1 at `entry = 100`, `current = 90`, side LONG with the
default limits: the −10% move triggers the stop loss. -/
theorem should_exit_directional_exits_witness :
    RiskManager.should_exit {} 100 90 "LONG" = .ok (some "STOP_LOSS") := by
  have h := should_exit_directional_exits {} 100 90 "LONG" (by norm_num) (by norm_num)
    (Or.inl rfl) (by norm_num) (by norm_num)
  exact (h.2.2.1).mpr (by rw [h.1]; norm_num)

/-- C8 (amended): calling `should_exit` with `entry_price = 0` fails with a
`ZeroDivisionError` from the division itself, surfaced to the caller; the
source defines no `InvalidPriceError`. -/
theorem should_exit_zero_entry_division_error (limits : RiskLimits) (c : ℚ)
    (side : String) :
    RiskManager.should_exit limits 0 c side = .error .zeroDivisionError := by
  rw [RiskManager.should_exit, if_pos rfl]

/-- C8 counterexample: at `entry_price = 0` the call does not fail with the
spec's `InvalidPriceError` (it raises `ZeroDivisionError` instead). -/
theorem should_exit_zero_entry_not_invalid_price :
    RiskManager.should_exit {} 0 100 "LONG" = .error .zeroDivisionError ∧
    RiskManager.should_exit {} 0 100 "LONG" ≠ .error .invalidPriceError := by
  rw [RiskManager.should_exit, if_pos rfl]
  exact ⟨rfl, by simp⟩

/-- C2: a BUY trade of quantity `q2` at price `p2` into an existing LONG
position of quantity `q1` at entry `p1` leaves the position with
`entry_price = (q1*p1 + q2*p2)/(q1 + q2)` and `quantity = q1 + q2`. -/
theorem add_trade_buy_long_weighted_average (st : PortfolioState) (symbol : String)
    (q2 p2 fee : ℚ) (oid : String) (pos : Position)
    (hpos : alistGet st.positions symbol = some pos) (hlong : pos.side = "LONG")
    (hq1 : 0 < pos.quantity) (hq2 : 0 < q2) :
    alistGet (add_trade st symbol "BUY" q2 p2 fee oid).positions symbol =
      some { pos with
        entry_price := (pos.quantity * pos.entry_price + q2 * p2) / (pos.quantity + q2),
        quantity := pos.quantity + q2 } := by
  simp [add_trade, update_position_from_trade, hpos, hlong, alistGet_set_self]

/-- Witness for C2: LONG 10 @ 100, BUY 10 @ 120 → quantity 20 at the
volume-weighted entry 110. -/
theorem add_trade_buy_long_weighted_average_witness :
    alistGet (add_trade ⟨[("BTCUSDT", ⟨"BTCUSDT", "LONG", 10, 100, 100, 0, 0⟩)], [], 10000⟩
        "BTCUSDT" "BUY" 10 120 0 "").positions "BTCUSDT" =
      some ⟨"BTCUSDT", "LONG", 20, 110, 100, 0, 0⟩ := by
  have h := add_trade_buy_long_weighted_average
    ⟨[("BTCUSDT", ⟨"BTCUSDT", "LONG", 10, 100, 100, 0, 0⟩)], [], 10000⟩
    "BTCUSDT" 10 120 0 "" ⟨"BTCUSDT", "LONG", 10, 100, 100, 0, 0⟩
    (by simp [alistGet]) rfl (by norm_num) (by norm_num)
  rw [h]
  norm_num

/-- C3: a SELL trade larger than the LONG position closes the full existing
quantity with realized-PnL delta `(price − entry) * quantity` (recorded both
on the position and on the trade appended to the history), and the excess
becomes a SHORT position entered at the trade price. -/
theorem add_trade_sell_oversized_flips_short (st : PortfolioState) (symbol : String)
    (tq p fee : ℚ) (oid : String) (pos : Position)
    (hpos : alistGet st.positions symbol = some pos) (hlong : pos.side = "LONG")
    (hlt : pos.quantity < tq) :
    alistGet (add_trade st symbol "SELL" tq p fee oid).positions symbol =
      some { pos with
        realized_pnl := pos.realized_pnl + (p - pos.entry_price) * pos.quantity,
        side := "SHORT",
        quantity := tq - pos.quantity,
        entry_price := p } ∧
    (add_trade st symbol "SELL" tq p fee oid).trade_history =
      st.trade_history ++
        [{ symbol := symbol, side := "SELL", quantity := tq, price := p, fee := fee,
           order_id := oid, pnl := (p - pos.entry_price) * pos.quantity }] := by
  constructor <;>
    simp [add_trade, update_position_from_trade, hpos, hlong, hlt, hlt.le,
      alistGet_set_self]

/-- Witness for C3 (the spec's own example): LONG 10 @ 100, SELL 15 @ 90 →
realized PnL −100, resulting SHORT 5 @ 90 and the trade recorded with
`pnl = −100`. -/
theorem add_trade_sell_oversized_flips_short_witness :
    alistGet (add_trade ⟨[("BTCUSDT", ⟨"BTCUSDT", "LONG", 10, 100, 100, 0, 0⟩)], [], 10000⟩
        "BTCUSDT" "SELL" 15 90 0 "").positions "BTCUSDT" =
      some ⟨"BTCUSDT", "SHORT", 5, 90, 100, 0, -100⟩ ∧
    (add_trade ⟨[("BTCUSDT", ⟨"BTCUSDT", "LONG", 10, 100, 100, 0, 0⟩)], [], 10000⟩
        "BTCUSDT" "SELL" 15 90 0 "").trade_history =
      [⟨"BTCUSDT", "SELL", 15, 90, 0, "", -100⟩] := by
  have h := add_trade_sell_oversized_flips_short
    ⟨[("BTCUSDT", ⟨"BTCUSDT", "LONG", 10, 100, 100, 0, 0⟩)], [], 10000⟩
    "BTCUSDT" 15 90 0 "" ⟨"BTCUSDT", "LONG", 10, 100, 100, 0, 0⟩
    (by simp [alistGet]) rfl (by norm_num)
  refine ⟨h.1.trans ?_, h.2.trans ?_⟩ <;> norm_num

/-- C5 counterexample: a SELL on a symbol with no open position is not
rejected — `add_trade` creates no position, yet appends the trade to the
history and credits the balance, so the ledger does record an effect. -/
theorem add_trade_sell_no_position_recorded :
    (add_trade ⟨[], [], 10000⟩ "BTCUSDT" "SELL" 1 100 0 "").positions = [] ∧
    (add_trade ⟨[], [], 10000⟩ "BTCUSDT" "SELL" 1 100 0 "").trade_history =
      [⟨"BTCUSDT", "SELL", 1, 100, 0, "", 0⟩] ∧
    (add_trade ⟨[], [], 10000⟩ "BTCUSDT" "SELL" 1 100 0 "").balance = 10100 ∧
    (10100 : ℚ) ≠ 10000 := by
  refine ⟨?_, ?_, ?_, by norm_num⟩ <;>
    simp [add_trade, update_position_from_trade, alistGet] <;> norm_num

/-- C5 (amended): a SELL trade on a symbol with no open position raises no
error and opens no position (the position map is untouched), but the trade
is still appended to the history with `pnl = 0` and the balance is
increased by `quantity*price − fee`. -/
theorem add_trade_sell_no_position_silently_recorded (st : PortfolioState)
    (symbol : String) (q p fee : ℚ) (oid : String)
    (hnone : alistGet st.positions symbol = none) :
    (add_trade st symbol "SELL" q p fee oid).positions = st.positions ∧
    (add_trade st symbol "SELL" q p fee oid).trade_history =
      st.trade_history ++
        [{ symbol := symbol, side := "SELL", quantity := q, price := p, fee := fee,
           order_id := oid, pnl := 0 }] ∧
    (add_trade st symbol "SELL" q p fee oid).balance = st.balance + (q * p - fee) := by
  refine ⟨?_, ?_, ?_⟩ <;> simp [add_trade, update_position_from_trade, hnone]

/-- Witness for the amended C5 at a concrete one-lot SELL on an empty book. -/
theorem add_trade_sell_no_position_silently_recorded_witness :
    (add_trade ⟨[], [], 5000⟩ "ETHUSDT" "SELL" 2 50 1 "X").positions = [] ∧
    (add_trade ⟨[], [], 5000⟩ "ETHUSDT" "SELL" 2 50 1 "X").trade_history =
      [⟨"ETHUSDT", "SELL", 2, 50, 1, "X", 0⟩] ∧
    (add_trade ⟨[], [], 5000⟩ "ETHUSDT" "SELL" 2 50 1 "X").balance = 5000 + (2 * 50 - 1) :=
  add_trade_sell_no_position_silently_recorded ⟨[], [], 5000⟩ "ETHUSDT" 2 50 1 "X"
    (by simp [alistGet])

/-- C10: a trade on a symbol whose open position is SHORT leaves the
position map completely unchanged — whatever the trade side — while the
trade is still appended to the history with `pnl = 0` and the balance is
still adjusted by the BUY/SELL rule. -/
theorem add_trade_short_position_frame (st : PortfolioState) (symbol side : String)
    (q p fee : ℚ) (oid : String) (pos : Position)
    (hpos : alistGet st.positions symbol = some pos) (hshort : pos.side = "SHORT")
    (hside : side = "BUY" ∨ side = "SELL") :
    (add_trade st symbol side q p fee oid).positions = st.positions ∧
    alistGet (add_trade st symbol side q p fee oid).positions symbol = some pos ∧
    (add_trade st symbol side q p fee oid).trade_history =
      st.trade_history ++
        [{ symbol := symbol, side := side, quantity := q, price := p, fee := fee,
           order_id := oid, pnl := 0 }] ∧
    (add_trade st symbol side q p fee oid).balance =
      (if side = "BUY" then st.balance - (q * p + fee)
       else st.balance + (q * p - fee)) := by
  refine ⟨?_, ?_, ?_, ?_⟩ <;> simp [add_trade, update_position_from_trade, hpos, hshort]

/-- Witness for C10: a BUY against an open SHORT position changes nothing in
the position map but still books the trade and debits the balance. -/
theorem add_trade_short_position_frame_witness :
    (add_trade ⟨[("BTCUSDT", ⟨"BTCUSDT", "SHORT", 3, 200, 200, 0, 0⟩)], [], 10000⟩
        "BTCUSDT" "BUY" 1 150 0 "").positions =
      [("BTCUSDT", ⟨"BTCUSDT", "SHORT", 3, 200, 200, 0, 0⟩)] ∧
    (add_trade ⟨[("BTCUSDT", ⟨"BTCUSDT", "SHORT", 3, 200, 200, 0, 0⟩)], [], 10000⟩
        "BTCUSDT" "BUY" 1 150 0 "").trade_history =
      [⟨"BTCUSDT", "BUY", 1, 150, 0, "", 0⟩] := by
  have h := add_trade_short_position_frame
    ⟨[("BTCUSDT", ⟨"BTCUSDT", "SHORT", 3, 200, 200, 0, 0⟩)], [], 10000⟩
    "BTCUSDT" "BUY" 1 150 0 "" ⟨"BTCUSDT", "SHORT", 3, 200, 200, 0, 0⟩
    (by simp [alistGet]) rfl (Or.inl rfl)
  exact ⟨h.1, h.2.2.1⟩

/-- One `add_trade` call keeps every open position's quantity strictly
positive, provided the trade quantity is positive. -/
theorem add_trade_preserves_positionsPositive (st : PortfolioState)
    (symbol side : String) (q p fee : ℚ) (oid : String)
    (hq : 0 < q) (hinv : positionsPositive st.positions) :
    positionsPositive (add_trade st symbol side q p fee oid).positions := by
  intro pr hpr
  simp only [add_trade] at hpr
  unfold update_position_from_trade at hpr
  dsimp only at hpr
  split at hpr
  · -- no existing position
    split_ifs at hpr
    · rcases mem_alistSet hpr with h | h
      · subst h; simpa using hq
      · exact hinv _ h
    · exact hinv _ hpr
  · -- existing position
    next pos hget =>
      have hposq : 0 < pos.quantity := hinv _ (alistGet_mem hget)
      split_ifs at hpr with h1 h2 h3 h4
      · rcases mem_alistSet hpr with h | h
        · subst h; simpa using add_pos hposq hq
        · exact hinv _ h
      · rcases mem_alistSet hpr with h | h
        · subst h; simpa using sub_pos.mpr h4
        · exact hinv _ h
      · exact hinv _ (mem_alistDel hpr)
      · rcases mem_alistSet hpr with h | h
        · subst h
          simpa using sub_pos.mpr (lt_of_not_le h3)
        · exact hinv _ h
      · exact hinv _ hpr

/-- C9: (i) after any sequence of `add_trade` calls with positive trade
quantities, starting from a position map whose entries all have positive
quantity, every open position still has quantity > 0 — no position is ever
retained with zero quantity; (ii) a SELL for exactly the position's
quantity removes the position from the map. -/
theorem apply_trades_positions_positive :
    (∀ (st : PortfolioState) (reqs : List TradeRequest),
      positionsPositive st.positions → (∀ r ∈ reqs, 0 < r.quantity) →
      positionsPositive (apply_trades st reqs).positions) ∧
    (∀ (st : PortfolioState) (symbol : String) (p fee : ℚ) (oid : String)
      (pos : Position), (st.positions.map Prod.fst).Nodup →
      alistGet st.positions symbol = some pos → pos.side = "LONG" →
      alistGet (add_trade st symbol "SELL" pos.quantity p fee oid).positions symbol =
        none) := by
  constructor
  · intro st reqs
    induction reqs generalizing st with
    | nil => intro hinv _; simpa [apply_trades] using hinv
    | cons r rs ih =>
        intro hinv hreqs
        rw [apply_trades]
        exact ih _
          (add_trade_preserves_positionsPositive st r.symbol r.side r.quantity
            r.price r.fee r.order_id (hreqs r (by simp)) hinv)
          fun r' h => hreqs r' (by simp [h])
  · intro st symbol p fee oid pos hnd hpos hlong
    simp [add_trade, update_position_from_trade, hpos, hlong,
      alistGet_del_self_of_nodup hnd]

/-- Witness for C9: a fresh BUY then an exact-quantity SELL leave a map with
only positive quantities, and the exact close removes the position. -/
theorem apply_trades_positions_positive_witness :
    positionsPositive (apply_trades ⟨[], [], 10000⟩
      [⟨"BTCUSDT", "BUY", 1, 100, 0, ""⟩]).positions ∧
    alistGet (add_trade ⟨[("BTCUSDT", ⟨"BTCUSDT", "LONG", 10, 100, 100, 0, 0⟩)], [], 10000⟩
        "BTCUSDT" "SELL" 10 110 0 "").positions "BTCUSDT" = none := by
  constructor
  · exact apply_trades_positions_positive.1 ⟨[], [], 10000⟩
      [⟨"BTCUSDT", "BUY", 1, 100, 0, ""⟩] (by intro p hp; simp at hp)
      (by intro r hr; simp at hr; rw [hr]; norm_num)
  · exact apply_trades_positions_positive.2
      ⟨[("BTCUSDT", ⟨"BTCUSDT", "LONG", 10, 100, 100, 0, 0⟩)], [], 10000⟩
      "BTCUSDT" 110 0 "" ⟨"BTCUSDT", "LONG", 10, 100, 100, 0, 0⟩
      (by simp) (by simp [alistGet]) rfl

/-- C4 counterexample: with one opening trade (`pnl = 0`) and one winning
closing trade (`pnl = 5`), the code's win rate is 50 (it divides by all
trades) while the spec's closing-trades-only formula gives 100. -/
theorem win_rate_denominator_counterexample :
    win_rate [⟨"BTCUSDT", "BUY", 1, 100, 0, "", 0⟩, ⟨"BTCUSDT", "SELL", 1, 105, 0, "", 5⟩] = 50 ∧
    spec_win_rate [⟨"BTCUSDT", "BUY", 1, 100, 0, "", 0⟩, ⟨"BTCUSDT", "SELL", 1, 105, 0, "", 5⟩] = 100 ∧
    (50 : ℚ) ≠ 100 := by
  refine ⟨?_, ?_, by norm_num⟩
  · norm_num [win_rate, List.filter]
  · norm_num [spec_win_rate, List.filter]

/-- C4 (amended): `win_rate` is the count of trades with `pnl > 0` divided
by the count of ALL recorded trades (opening trades included), times 100;
an empty history gives 0 rather than a division error; and the spec's
closing-trades-only formula agrees exactly when every recorded trade is a
closing trade (`pnl ≠ 0`). -/
theorem win_rate_counts_all_trades :
    win_rate [] = 0 ∧
    (∀ h : List Trade, 0 < h.length →
      win_rate h = ((h.filter fun t => 0 < t.pnl).length : ℚ) / h.length * 100) ∧
    (∀ h : List Trade, (∀ t ∈ h, t.pnl ≠ 0) → win_rate h = spec_win_rate h) := by
  refine ⟨by simp [win_rate], fun h hh => by rw [win_rate, if_pos hh], fun h hall => ?_⟩
  have hfilter : (h.filter fun t => t.pnl ≠ 0) = h :=
    List.filter_eq_self.mpr fun t ht => by simpa using hall t ht
  rw [win_rate, spec_win_rate, hfilter]

/-- Witness for the amended C4: three closing trades with `pnl` +5, −2, +3
give a 66.66…% win rate on both formulas. -/
theorem win_rate_counts_all_trades_witness :
    win_rate [⟨"A", "SELL", 1, 1, 0, "", 5⟩, ⟨"A", "SELL", 1, 1, 0, "", -2⟩,
        ⟨"A", "SELL", 1, 1, 0, "", 3⟩] = 200/3 ∧
    win_rate [⟨"A", "SELL", 1, 1, 0, "", 5⟩, ⟨"A", "SELL", 1, 1, 0, "", -2⟩,
        ⟨"A", "SELL", 1, 1, 0, "", 3⟩] =
      spec_win_rate [⟨"A", "SELL", 1, 1, 0, "", 5⟩, ⟨"A", "SELL", 1, 1, 0, "", -2⟩,
        ⟨"A", "SELL", 1, 1, 0, "", 3⟩] := by
  constructor
  · rw [win_rate_counts_all_trades.2.1 _ (by simp)]
    simp [List.filter]
    norm_num
  · exact win_rate_counts_all_trades.2.2 _ (by intro t ht; fin_cases ht <;> norm_num)

/-- C6: the snapshot classification of `generate_signals` uses strict
inequalities against the hard-coded thresholds (3.0 percent change,
10,000,000 quote volume): BUY iff `change > 3 ∧ volume > 10^7`, SELL iff
`change < −3 ∧ volume > 10^7`, no signal otherwise; in particular a change
of exactly 3 never produces a signal. -/
theorem signal_rule_strict_thresholds :
    (∀ change vol : ℚ, signal_rule change vol = some .BUY ↔
      3 < change ∧ 10000000 < vol) ∧
    (∀ change vol : ℚ, signal_rule change vol = some .SELL ↔
      change < -3 ∧ 10000000 < vol) ∧
    (∀ change vol : ℚ, signal_rule change vol = none ↔
      ¬(3 < change ∧ 10000000 < vol) ∧ ¬(change < -3 ∧ 10000000 < vol)) ∧
    (∀ vol : ℚ, signal_rule 3 vol = none) := by
  refine ⟨fun change vol => ?_, fun change vol => ?_, fun change vol => ?_,
    fun vol => ?_⟩
  · rw [signal_rule]
    split_ifs with h1 h2
    · simp [h1]
    · simp [h1]
    · simp [h1]
  · rw [signal_rule]
    split_ifs with h1 h2
    · exact iff_of_false (by simp) fun hc => by linarith [h1.1, hc.1]
    · simp [h2]
    · exact iff_of_false (by simp) h2
  · rw [signal_rule]
    split_ifs with h1 h2
    · exact iff_of_false (by simp) fun hc => hc.1 h1
    · exact iff_of_false (by simp) fun hc => hc.2 h2
    · exact iff_of_true rfl ⟨h1, h2⟩
  · rw [signal_rule]
    rw [if_neg fun hc : 3 < (3 : ℚ) ∧ _ => lt_irrefl _ hc.1]
    rw [if_neg fun hc : (3 : ℚ) < -3 ∧ _ => by linarith [hc.1]]

/-- C7 counterexample: a batch whose first record has the non-numeric
`priceChangePercent` `"abc"` makes `generate_signals` abort the whole batch
with a `ValueError`; the well-formed second record is never processed. -/
theorem generate_signals_aborts_on_bad_record :
    generate_signals [[("priceChangePercent", "abc")],
        [("priceChangePercent", "5"), ("quoteVolume", "20000000")]] =
      .error .valueError := by
  rfl

/-- C7 (amended, for the backtest CSV loader): `load_candles` skips a row
with a missing or non-numeric required field and still processes every
other row of the batch — the result is exactly the parse of the remaining
rows.  `generate_signals`, by contrast, aborts its whole batch. -/
theorem load_candles_skips_bad_row (pre post : List (List (String × String)))
    (bad : List (String × String)) (hbad : row_to_candle bad = none) :
    load_candles (pre ++ bad :: post) = load_candles pre ++ load_candles post := by
  induction pre with
  | nil => simp [load_candles, hbad]
  | cons r rs ih =>
      cases hr : row_to_candle r <;> simp [load_candles, hr, ih]

/-- Witness for the amended C7: a malformed row between two well-formed
rows is dropped while both neighbours are parsed. -/
theorem load_candles_skips_bad_row_witness :
    row_to_candle [("open", "x")] = none ∧
    load_candles ([[("open", "1"), ("close", "2"), ("high", "3"), ("low", "1"),
        ("volume", "10")]] ++ [("open", "x")] ::
        [[("open", "2"), ("close", "4"), ("high", "5"), ("low", "2"),
        ("volume", "20")]]) =
      load_candles [[("open", "1"), ("close", "2"), ("high", "3"), ("low", "1"),
        ("volume", "10")]] ++
      load_candles [[("open", "2"), ("close", "4"), ("high", "5"), ("low", "2"),
        ("volume", "20")]] :=
  ⟨rfl, load_candles_skips_bad_row _ _ _ rfl⟩
